import Mathlib

set_option maxHeartbeats 4000000
set_option maxRecDepth 2000

/-!
Verification of the transaction-extraction engine of the pdf-csv repository.

The engine lives in src/python-backend/main.py (class PDFBankStatementProcessor);
a second, older engine lives in src/backend/pdf_processor.py.  The definitions
below are a shallow embedding of those Python functions: strings are Lean
strings (handled as character lists), Python floats are modelled as rationals
(every amount in the statements has an exact decimal form), Python dicts that
are used in insertion order are modelled as association lists, and functions
that can raise are modelled with Option.  Regular expressions are embedded as
explicit matchers for the exact patterns appearing in the source.
-/

namespace PdfCsv

/-- Python whitespace (the regex class for whitespace and str.strip), ASCII
subset; the statement texts handled here are ASCII. -/
def pyIsSpace (c : Char) : Bool :=
  c = ' ' || c = '\t' || c = '\n' || c = '\r' || c = '\x0b' || c = '\x0c'

/-- Python str.strip(). -/
def pyStrip (s : String) : String :=
  ⟨((s.data.dropWhile pyIsSpace).reverse.dropWhile pyIsSpace).reverse⟩

/-- Python str.lower() (ASCII). -/
def pyLower (s : String) : String := ⟨s.data.map Char.toLower⟩

/-- Substring occurrence on character lists: does needle occur inside hay?
Models the Python operator "needle in hay" (the empty needle occurs in
everything). -/
def subOccurs (needle : List Char) : List Char → Bool
  | [] => needle.isEmpty
  | c :: t => needle.isPrefixOf (c :: t) || subOccurs needle t

/-- Python "needle in hay" on strings. -/
def containsSub (hay needle : String) : Bool := subOccurs needle.data hay.data

/-- Python str.isdigit(). -/
def pyIsDigitStr (s : String) : Bool := !s.data.isEmpty && s.data.all (·.isDigit)

/-- First character test (Python str.startswith with a single character). -/
def startsWithC (s : String) (c : Char) : Bool :=
  match s.data with
  | [] => false
  | d :: _ => d = c

/-- Python str.startswith with a string argument. -/
def startsWithS (s pre : String) : Bool := pre.data.isPrefixOf s.data

/-- Last character test (Python str.endswith with a single character). -/
def lastIsC (s : String) (c : Char) : Bool :=
  match s.data.getLast? with
  | some d => d = c
  | none => false

/-- Python s[n:]. -/
def dropStr (s : String) (n : Nat) : String := ⟨s.data.drop n⟩

/-- Python len on a string (number of characters). -/
def strLen (s : String) : Nat := s.data.length

/-- Python s.count(c) for a single character. -/
def countCharS (s : String) (c : Char) : Nat := s.data.count c

/-- Python str.split(sep) for a one-character separator: keeps empty pieces. -/
def splitOnCharL (sep : Char) : List Char → List (List Char)
  | [] => [[]]
  | c :: t =>
    if c = sep then [] :: splitOnCharL sep t
    else
      match splitOnCharL sep t with
      | h :: r => (c :: h) :: r
      | [] => [[c]]

/-- ASCII letter, the character class of letters A to Z in both cases. -/
def isAsciiAlpha (c : Char) : Bool := ('a' ≤ c && c ≤ 'z') || ('A' ≤ c && c ≤ 'Z')

/-- Length of the maximal leading run satisfying p. -/
def countWhile (p : Char → Bool) : List Char → Nat
  | [] => 0
  | c :: t => if p c then countWhile p t + 1 else 0

/-- All remainders of cs after removing between lo and hi leading characters
satisfying p (hi capped by the run length), longest first.  This realises the
backtracking choices of a greedy bounded repetition. -/
def dropsBetween (p : Char → Bool) (lo hi : Nat) (cs : List Char) : List (List Char) :=
  let run := countWhile p cs
  let top := min hi run
  if lo > top then []
  else (List.range (top + 1 - lo)).map (fun k => cs.drop (top - k))

/-- Remainders after consuming zero or more groups of a comma followed by
exactly three digits (the thousands-group subpattern). -/
def commaGrp3Rem : List Char → List (List Char)
  | ',' :: a :: b :: c :: rest =>
    if a.isDigit && b.isDigit && c.isDigit then
      (',' :: a :: b :: c :: rest) :: commaGrp3Rem rest
    else [',' :: a :: b :: c :: rest]
  | cs => [cs]

/-- Tokens of the small regular-expression fragment used by the source
patterns. -/
inductive RTok where
  | digits (lo hi : Nat)
  | digitsGE (lo : Nat)
  | alpha (n : Nat)
  | cls (cs : List Char)
  | opt (c : Char)
  | wsPlus
  | wsStar
  | commaGrp3
deriving Repr

/-- All remainders of cs after the token consumes a matching piece. -/
def expandTok : RTok → List Char → List (List Char)
  | .digits lo hi, cs => dropsBetween Char.isDigit lo hi cs
  | .digitsGE lo, cs => dropsBetween Char.isDigit lo (countWhile Char.isDigit cs) cs
  | .alpha n, cs => dropsBetween isAsciiAlpha n n cs
  | .cls set, cs =>
    match cs with
    | c :: t => if set.contains c then [t] else []
    | [] => []
  | .opt c, cs =>
    match cs with
    | d :: t => if d = c then [(d :: t), t] else [(d :: t)]
    | [] => [[]]
  | .wsPlus, cs => dropsBetween pyIsSpace 1 (countWhile pyIsSpace cs) cs
  | .wsStar, cs => dropsBetween pyIsSpace 0 (countWhile pyIsSpace cs) cs
  | .commaGrp3, cs => commaGrp3Rem cs

/-- The token sequence matches some prefix of cs (re.match semantics). -/
def rmatch : List RTok → List Char → Bool
  | [], _ => true
  | t :: ts, cs => (expandTok t cs).any (rmatch ts)

/-- The token sequence matches all of cs (the patterns anchored on both
ends). -/
def rmatchFull : List RTok → List Char → Bool
  | [], cs => cs.isEmpty
  | t :: ts, cs => (expandTok t cs).any (rmatchFull ts)

/-- All suffixes of a list, longest first. -/
def tailsList : List Char → List (List Char)
  | [] => [[]]
  | c :: t => (c :: t) :: tailsList t

/-- The token sequence matches at some position (re.search semantics). -/
def rsearch (ts : List RTok) (cs : List Char) : Bool :=
  (tailsList cs).any (rmatch ts)

/-- A dash or a slash, the separator class of the date patterns. -/
def sepDash : RTok := .cls ['-', '/']

/-- The five date patterns shared by is-date and contains-date in main.py. -/
def datePatterns : List (List RTok) :=
  [ [.digits 1 2, sepDash, .digits 1 2, sepDash, .digits 2 4]
  , [.digits 1 2, sepDash, .alpha 3, sepDash, .digits 2 4]
  , [.digits 2 4, sepDash, .digits 1 2, sepDash, .digits 1 2]
  , [.digits 1 2, .wsPlus, .alpha 3, .wsPlus, .digits 2 4]
  , [.digits 1 2, .cls ['-'], .alpha 3, .cls ['-'], .digits 2 4] ]

/-- main.py _is_date: one of the date patterns matches a prefix of the
stripped text. -/
def isDateStr (text : String) : Bool :=
  datePatterns.any (fun p => rmatch p (pyStrip text).data)

/-- The three flexible patterns of _looks_like_date. -/
def flexDatePatterns : List (List RTok) :=
  [ [.digits 1 2, .wsPlus, .alpha 3, .opt ',', .wsPlus, .digits 4 4]
  , [.alpha 3, .wsPlus, .digits 1 2, .opt ',', .wsPlus, .digits 4 4]
  , [.digits 1 2, .wsStar, .alpha 3, .wsStar, .opt ',', .wsStar, .digits 4 4] ]

/-- main.py _looks_like_date: one of the flexible patterns occurs anywhere in
the stripped text. -/
def looksLikeDate (text : String) : Bool :=
  flexDatePatterns.any (fun p => rsearch p (pyStrip text).data)

/-- main.py _contains_date: one of the date patterns occurs anywhere in the
text (no stripping). -/
def containsDate (text : String) : Bool :=
  datePatterns.any (fun p => rsearch p text.data)

/-- The character class removed before amount matching: rupee sign, dollar
sign, comma and whitespace. -/
def removeCurrency (s : String) : String :=
  ⟨s.data.filter (fun c => !(c = '₹' || c = '$' || c = ',' || pyIsSpace c))⟩

/-- The five amount patterns of _is_amount, applied to the cleaned text and
anchored on both ends. -/
def amountPatterns : List (List RTok) :=
  [ [.digitsGE 1, .opt '.', .digitsGE 0]
  , [.cls ['('], .digitsGE 1, .opt '.', .digitsGE 0, .cls [')']]
  , [.digits 1 3, .commaGrp3, .opt '.', .digitsGE 0]
  , [.digitsGE 1, .cls ['.'], .digits 2 2]
  , [.digits 1 3, .commaGrp3, .cls ['.'], .digits 2 2] ]

/-- main.py _is_amount: strip, drop one leading sign, remove currency symbols,
commas and whitespace, then full-match one of the amount patterns. -/
def isAmount (text : String) : Bool :=
  let t := pyStrip text
  let t := if startsWithC t '+' || startsWithC t '-' then dropStr t 1 else t
  let cleaned := removeCurrency t
  amountPatterns.any (fun p => rmatchFull p cleaned.data)

/-- One position matching either a digit followed by a dot or comma and two
digits, or four consecutive digits. -/
def amtHere : List Char → Bool
  | d :: s :: a :: b :: _ =>
    d.isDigit &&
      (((s = '.' || s = ',') && a.isDigit && b.isDigit) ||
        (s.isDigit && a.isDigit && b.isDigit))
  | _ => false

/-- Search loop for contains-amount. -/
def containsAmountL : List Char → Bool
  | [] => false
  | c :: t => amtHere (c :: t) || containsAmountL t

/-- main.py _contains_amount: the text contains one or more digits followed by
a dot or comma and two digits, or four or more consecutive digits. -/
def containsAmount (text : String) : Bool := containsAmountL text.data

/-- Numeric value of a digit string. -/
def digitsVal (cs : List Char) : Nat :=
  cs.foldl (fun a c => a * 10 + (c.toNat - '0'.toNat)) 0

/-- Python float() restricted to plain decimal literals with an optional
single leading sign; these are the only shapes the cleaned amount strings can
take (no exponents, infinities or underscores reach the parser).  none models
a ValueError. -/
def parseFloatQ (s : String) : Option ℚ :=
  let signed : ℚ × List Char :=
    match s.data with
    | '-' :: t => (-1, t)
    | '+' :: t => (1, t)
    | t => (1, t)
  let sign := signed.1
  let cs := signed.2
  let intPart := cs.takeWhile Char.isDigit
  let rest := cs.dropWhile Char.isDigit
  match rest with
  | [] => if intPart.isEmpty then none else some (sign * (digitsVal intPart : ℚ))
  | '.' :: frac =>
    if frac.all Char.isDigit && !(intPart.isEmpty && frac.isEmpty) then
      some (sign * ((digitsVal intPart : ℚ) +
        (digitsVal frac : ℚ) / (10 : ℚ) ^ frac.length))
    else none
  | _ => none

/-- main.py _clean_amount: strip, drop a leading plus, remove currency
symbols, commas and whitespace, unwrap parentheses, drop a leading minus,
parse and return the absolute value; 0 on parse failure.  (The negativity
flags of the source are dead: the function always returns the absolute
value.) -/
def cleanAmount (amount_str : String) : ℚ :=
  if amount_str = "" then 0
  else
    let original := pyStrip amount_str
    let original := if startsWithC original '+' then dropStr original 1 else original
    let cleaned := removeCurrency original
    let cleaned :=
      if startsWithC cleaned '(' && lastIsC cleaned ')' then
        (⟨(cleaned.data.drop 1).dropLast⟩ : String)
      else cleaned
    let cleaned := if startsWithC cleaned '-' then dropStr cleaned 1 else cleaned
    match parseFloatQ cleaned with
    | some q => |q|
    | none => 0

/-- clean_amount of the secondary backend (src/backend/pdf_processor.py):
sign is preserved, a parenthesized amount is returned negated, and a
parenthesized amount whose body does not parse raises ValueError outside the
try block (modelled as none).  The substitution class of that file contains
the mojibake bytes of the rupee sign together with the dollar sign, comma and
whitespace. -/
def cleanAmountPP (amount_str : String) : Option ℚ :=
  if amount_str = "" then some 0
  else
    let s := pyStrip amount_str
    let s : String :=
      ⟨s.data.filter (fun c =>
        !(c = 'â' || c = '‚' || c = '¹' || c = '$' || c = ',' || pyIsSpace c))⟩
    if startsWithC s '(' && lastIsC s ')' then
      let inner : String := ⟨(s.data.drop 1).dropLast⟩
      if inner = "" then some 0
      else
        match parseFloatQ inner with
        | some q => some (-q)
        | none => none
    else
      if s = "" then some 0
      else
        match parseFloatQ s with
        | some q => some q
        | none => some 0

/-- Candidates for a greedy one-or-two digit group, longest first. -/
def grabDigits12 : List Char → List (List Char × List Char)
  | [] => []
  | [a] => if a.isDigit then [([a], [])] else []
  | a :: b :: t =>
    if a.isDigit then
      if b.isDigit then [([a, b], t), ([a], b :: t)] else [([a], b :: t)]
    else []

/-- A group of exactly n digits. -/
def grabDigitsN (n : Nat) (cs : List Char) : Option (List Char × List Char) :=
  let g := cs.take n
  if g.length = n && g.all Char.isDigit then some (g, cs.drop n) else none

/-- Separator of the date normalisation patterns. -/
def sepOk (c : Char) : Bool := c = '-' || c = '/'

/-- Prefix match for day-month-year with a four-digit year, returning the
three groups. -/
def matchDMY4 (cs : List Char) : Option (String × String × String) :=
  (grabDigits12 cs).findSome? (fun c1 =>
    match c1.2 with
    | s1 :: r1 =>
      if sepOk s1 then
        (grabDigits12 r1).findSome? (fun c2 =>
          match c2.2 with
          | s2 :: r2 =>
            if sepOk s2 then
              match grabDigitsN 4 r2 with
              | some g3 => some (⟨c1.1⟩, ⟨c2.1⟩, ⟨g3.1⟩)
              | none => none
            else none
          | [] => none)
      else none
    | [] => none)

/-- Prefix match for day-month-year with a two-digit year. -/
def matchDMY2 (cs : List Char) : Option (String × String × String) :=
  (grabDigits12 cs).findSome? (fun c1 =>
    match c1.2 with
    | s1 :: r1 =>
      if sepOk s1 then
        (grabDigits12 r1).findSome? (fun c2 =>
          match c2.2 with
          | s2 :: r2 =>
            if sepOk s2 then
              match grabDigitsN 2 r2 with
              | some g3 => some (⟨c1.1⟩, ⟨c2.1⟩, ⟨g3.1⟩)
              | none => none
            else none
          | [] => none)
      else none
    | [] => none)

/-- Prefix match for year-month-day with a four-digit year, returning
(year, month, day). -/
def matchY4MD (cs : List Char) : Option (String × String × String) :=
  match grabDigitsN 4 cs with
  | some g1 =>
    match g1.2 with
    | s1 :: r1 =>
      if sepOk s1 then
        (grabDigits12 r1).findSome? (fun c2 =>
          match c2.2 with
          | s2 :: r2 =>
            if sepOk s2 then
              (grabDigits12 r2).findSome? (fun c3 => some (⟨g1.1⟩, ⟨c2.1⟩, ⟨c3.1⟩))
            else none
          | [] => none)
      else none
    | [] => none
  | none => none

/-- Prefix match for a day, whitespace, three-letter month name, optional
comma, whitespace and four-digit year.  The whitespace runs are consumed
whole: the neighbouring tokens cannot match whitespace. -/
def matchDMonY (cs : List Char) : Option (String × String × String) :=
  (grabDigits12 cs).findSome? (fun c1 =>
    let r1 := c1.2
    let ws1 := countWhile pyIsSpace r1
    if ws1 = 0 then none
    else
      let r2 := r1.drop ws1
      let mon := r2.take 3
      if mon.length = 3 && mon.all isAsciiAlpha then
        let r3 := r2.drop 3
        let r3 :=
          match r3 with
          | ',' :: t => t
          | t => t
        let ws2 := countWhile pyIsSpace r3
        if ws2 = 0 then none
        else
          match grabDigitsN 4 (r3.drop ws2) with
          | some g3 => some (⟨c1.1⟩, ⟨mon⟩, ⟨g3.1⟩)
          | none => none
      else none)

/-- Python str.zfill(2). -/
def zfill2 (s : String) : String :=
  if 2 ≤ strLen s then s else ⟨List.replicate (2 - strLen s) '0' ++ s.data⟩

/-- Month-name table of _normalize_date. -/
def monthMap : List (String × String) :=
  [("jan", "01"), ("feb", "02"), ("mar", "03"), ("apr", "04"), ("may", "05"),
   ("jun", "06"), ("jul", "07"), ("aug", "08"), ("sep", "09"), ("oct", "10"),
   ("nov", "11"), ("dec", "12")]

/-- Lookup in an association list with a default (Python dict.get). -/
def lookupD (m : List (String × String)) (k d : String) : String :=
  match m.find? (fun e => e.1 == k) with
  | some e => e.2
  | none => d

/-- main.py _normalize_date: the first matching template wins; unmatched
input is returned stripped but otherwise unchanged. -/
def normalizeDate (date_str : String) : String :=
  if date_str = "" then ""
  else
    let ds := pyStrip date_str
    match matchDMY4 ds.data with
    | some g => zfill2 g.1 ++ "-" ++ zfill2 g.2.1 ++ "-" ++ g.2.2
    | none =>
      match matchDMY2 ds.data with
      | some g =>
        let yr := digitsVal g.2.2.data
        let yr := if yr < 50 then 2000 + yr else 1900 + yr
        zfill2 g.1 ++ "-" ++ zfill2 g.2.1 ++ "-" ++ toString yr
      | none =>
        match matchY4MD ds.data with
        | some g => zfill2 g.2.2 ++ "-" ++ zfill2 g.2.1 ++ "-" ++ g.1
        | none =>
          match matchDMonY ds.data with
          | some g =>
            zfill2 g.1 ++ "-" ++ lookupD monthMap (pyLower g.2.1) "01" ++ "-" ++ g.2.2
          | none => ds

/-- Summary-row phrases of _is_summary_row. -/
def summaryPatterns : List String :=
  ["transaction total", "opening balance", "closing balance", "total debit",
   "total credit", "net amount", "balance b/f", "balance c/f",
   "brought forward", "carried forward", "subtotal", "grand total",
   "summary", "total amount"]

/-- Charge and fee phrases of _is_summary_row. -/
def chargePatternsSR : List String :=
  ["charge type", "charges(rs)", "total(rs)", "rtgs fee",
   "cash transaction fee", "service charge", "processing fee", "annual fee",
   "maintenance fee", "sms charges", "atm charges", "debit card charges",
   "cheque book charges", "recover date", "period", "sr. no", "sr.no",
   "chargeable amount", "net chargeable", "charges indicate"]

/-- main.py _is_summary_row: the empty description is never a summary row;
otherwise match the summary and charge phrase lists against the lowered
stripped description, then drop very short, purely numeric, or bare
month-period descriptions. -/
def isSummaryRow (description : String) : Bool :=
  if description = "" then false
  else
    let dl := pyStrip (pyLower description)
    if summaryPatterns.any (fun p => containsSub dl p) then true
    else if chargePatternsSR.any (fun p => containsSub dl p) then true
    else if strLen (pyStrip description) ≤ 2 then true
    else if pyIsDigitStr (pyStrip description) && strLen (pyStrip description) ≤ 3 then true
    else
      let st := pyStrip description
      if countCharS st '-' = 1 && strLen st ≤ 8 then
        match splitOnCharL '-' st.data with
        | [p1, p2] =>
          (!p1.isEmpty && p1.all (·.isDigit)) && (!p2.isEmpty && p2.all (·.isDigit))
        | _ => false
      else false

/-- Lower-stripped cells joined with single spaces, empty cells contributing
empty strings: the row text used by the header classifiers. -/
def rowJoined (row : List String) : String :=
  String.intercalate " "
    (row.map (fun cell => if cell = "" then "" else pyLower (pyStrip cell)))

/-- Header phrases of _is_charge_table_header. -/
def chargeHeaderPatterns : List String :=
  ["sr. no", "sr.no", "period", "recover date", "charge type", "charges(rs)",
   "total(rs)", "service charges", "fees summary", "transaction charges"]

/-- main.py _is_charge_table_header: at least two charge-header phrases in
the joined row text, rows shorter than three cells excluded. -/
def isChargeTableHeader (row : List String) : Bool :=
  if row.length < 3 then false
  else decide (2 ≤ chargeHeaderPatterns.countP (fun p => containsSub (rowJoined row) p))

/-- Header phrases of _is_transaction_table_header. -/
def transactionHeaderPatterns : List String :=
  ["tran date", "transaction date", "particulars", "debit", "credit",
   "balance", "init.br", "chq no", "check no", "reference", "description"]

/-- main.py _is_transaction_table_header: at least three transaction-header
phrases in the joined row text, rows shorter than three cells excluded. -/
def isTransactionTableHeader (row : List String) : Bool :=
  if row.length < 3 then false
  else decide (3 ≤ transactionHeaderPatterns.countP (fun p => containsSub (rowJoined row) p))

/-- Charge phrases of _is_invalid_row. -/
def chargePatternsIR : List String :=
  ["charge type", "charges(rs)", "total(rs)", "rtgs fee",
   "cash transaction fee", "service charge", "processing fee", "recover date",
   "sr. no", "sr.no", "period", "chargeable amount", "net chargeable"]

/-- main.py _is_invalid_row: charge phrases or obvious header phrases
invalidate a row; a row whose first cell is a date is never invalid; a row
whose first cell is a small serial number followed by a date, or a bare
month-period first cell, is invalid. -/
def isInvalidRow (row : List String) : Bool :=
  if row = [] then true
  else
    let cleaned := row.map pyStrip
    let all_text := pyLower (String.intercalate " " (cleaned.filter (fun c => c ≠ "")))
    if chargePatternsIR.any (fun p => containsSub all_text p) then true
    else if containsSub all_text "date" && containsSub all_text "transaction" &&
        containsSub all_text "details" then true
    else if containsSub all_text "tran date" && containsSub all_text "particulars" then true
    else
      let first := pyStrip (cleaned.headD "")
      if isDateStr first || looksLikeDate first then false
      else if 2 ≤ row.length then
        let second := pyStrip (cleaned.getD 1 "")
        if pyIsDigitStr first && 1 ≤ digitsVal first.data &&
            digitsVal first.data ≤ 99 && isDateStr second then true
        else if countCharS first '-' = 1 && strLen first ≤ 8 then
          match splitOnCharL '-' first.data with
          | [p1, p2] =>
            (!p1.isEmpty && p1.all (·.isDigit)) && (!p2.isEmpty && p2.all (·.isDigit))
          | _ => false
        else false
      else false

/-- A transaction record: the dict built by the assembly functions of
main.py.  Optional amounts are the dict entries that may hold None. -/
structure Tx where
  date : String
  chq_no : String
  description : String
  debit : Option ℚ
  credit : Option ℚ
  balance : Option ℚ
  init_br : String
deriving DecidableEq, Repr

/-- The all-empty transaction dict that the assemblers start from. -/
def emptyTx : Tx :=
  { date := "", chq_no := "", description := "", debit := none, credit := none,
    balance := none, init_br := "" }

/-- Accumulator of the positional loop of _parse_table_row. -/
structure RowState where
  tran_date : String := ""
  chq_no : String := ""
  particulars : String := ""
  debit : Option ℚ := none
  credit : Option ℚ := none
  balance : Option ℚ := none
  init_br : String := ""
deriving Repr

/-- Concatenation into the particulars field with single-space joins. -/
def appendWord (acc w : String) : String :=
  if acc = "" then w else acc ++ " " ++ w

/-- Reference-number shape: a UPI prefix, a pure digit string, or an
alphanumeric of length at least five containing a digit. -/
def isRefLike (cell : String) : Bool :=
  startsWithS cell "UPI-" || pyIsDigitStr cell ||
    (5 ≤ strLen cell && cell.data.any (·.isDigit))

/-- One step of the positional cell loop of _parse_table_row. -/
def parseTableRowStep (st : RowState) (ic : Nat × String) : RowState :=
  let i := ic.1
  let cell := ic.2
  if cell = "" then st
  else if st.tran_date = "" && (isDateStr cell || looksLikeDate cell) then
    { st with tran_date := cell }
  else if isAmount cell then
    let amount_val := cleanAmount cell
    if 0 < amount_val then
      if i = 3 then { st with debit := some amount_val }
      else if i = 4 then { st with credit := some amount_val }
      else if i = 5 then { st with balance := some amount_val }
      else if st.balance = none then { st with balance := some amount_val }
      else if st.debit = none then { st with debit := some amount_val }
      else if st.credit = none then { st with credit := some amount_val }
      else st
    else st
  else if (startsWithC cell '-' || startsWithC cell '+') && isAmount (dropStr cell 1) then
    let amount_val := cleanAmount (dropStr cell 1)
    if startsWithC cell '-' then { st with debit := some amount_val }
    else { st with credit := some amount_val }
  else if st.chq_no = "" && isRefLike cell then { st with chq_no := cell }
  else { st with particulars := appendWord st.particulars cell }

/-- The return dict of _parse_table_row: date normalised when present, the
placeholder description when none accumulated, absolute values on the
amounts. -/
def packageTableRow (st : RowState) : Tx :=
  { date := if st.tran_date ≠ "" then normalizeDate st.tran_date else st.tran_date,
    chq_no := st.chq_no,
    description := if st.particulars = "" then "Transaction" else st.particulars,
    debit := st.debit.map (fun q => |q|),
    credit := st.credit.map (fun q => |q|),
    balance := st.balance.map (fun q => |q|),
    init_br := st.init_br }

/-- Validation and packaging tail of _parse_table_row (everything after the
cell loop). -/
def validateTableRow (st : RowState) : Option Tx :=
  if isSummaryRow st.particulars then none
  else if st.tran_date = "" ∧ st.particulars = "" then none
  else if st.debit = none ∧ st.credit = none then none
  else some (packageTableRow st)

/-- main.py _parse_table_row: skip short rows, charge headers, transaction
headers and invalid rows; run the positional loop over the stripped cells;
validate and package. -/
def parseTableRow (row : List String) : Option Tx :=
  if row = [] ∨ row.length < 3 then none
  else if isChargeTableHeader row then none
  else if isTransactionTableHeader row then none
  else if isInvalidRow row then none
  else validateTableRow (((row.map pyStrip).enum).foldl parseTableRowStep {})

/-- Column mapping: a Python dict from field names to column indices, used in
insertion order.  Assignment replaces a value in place and appends unknown
keys. -/
abbrev ColMap := List (String × Nat)

/-- Dict assignment preserving insertion order. -/
def cmSet (m : ColMap) (k : String) (v : Nat) : ColMap :=
  if m.any (fun e => e.1 == k) then
    m.map (fun e => if e.1 == k then (k, v) else e)
  else m ++ [(k, v)]

/-- Dict membership. -/
def cmHas (m : ColMap) (k : String) : Bool := m.any (fun e => e.1 == k)

/-- Dict values, in insertion order. -/
def cmValues (m : ColMap) : List Nat := m.map (·.2)

/-- Header keyword lists of _parse_table_universal. -/
def dateIndicators : List String :=
  ["date", "tran date", "transaction date", "txn date"]

/-- Amount keyword list of _parse_table_universal. -/
def amountIndicators : List String :=
  ["debit", "credit", "balance", "amount", "withdrawal", "deposit"]

/-- Description keyword list of _parse_table_universal. -/
def descIndicators : List String :=
  ["particulars", "description", "details", "transaction details", "narration"]

/-- Column assignment from one lowered header cell (_parse_table_universal,
step 1 inner loop).  Later cells overwrite earlier bindings of the same
field. -/
def headerCellAssign (m : ColMap) (jc : Nat × String) : ColMap :=
  let j := jc.1
  let cell := jc.2
  if dateIndicators.any (fun ind => containsSub cell ind) then cmSet m "date" j
  else if containsSub cell "debit" || containsSub cell "withdrawal" then cmSet m "debit" j
  else if containsSub cell "credit" || containsSub cell "deposit" then cmSet m "credit" j
  else if containsSub cell "balance" then cmSet m "balance" j
  else if descIndicators.any (fun ind => containsSub cell ind) then cmSet m "description" j
  else if containsSub cell "reference" || containsSub cell "ref" ||
      containsSub cell "chq" || containsSub cell "cheque" then cmSet m "reference" j
  else m

/-- The row as lowered stripped cells, empty for empty cells (the cleaned_row
of _parse_table_universal). -/
def cleanLowerRow (row : List String) : List String :=
  row.map (fun cell => if cell = "" then "" else pyLower (pyStrip cell))

/-- Does the joined row text look like a transaction-table header row? -/
def isHeaderRowText (row_text : String) : Bool :=
  (dateIndicators.any (fun ind => containsSub row_text ind)) &&
    ((amountIndicators.any (fun ind => containsSub row_text ind)) ||
      (descIndicators.any (fun ind => containsSub row_text ind)))

/-- Scan of _parse_table_universal step 1: the first non-empty row whose
joined text matches becomes the header row, and its cells build the column
mapping. -/
def findHeader : List (Nat × List String) → Option (Nat × ColMap)
  | [] => none
  | (i, row) :: rest =>
    if row = [] then findHeader rest
    else
      let cleaned := cleanLowerRow row
      if isHeaderRowText (String.intercalate " " cleaned) then
        some (i, (cleaned.enum).foldl headerCellAssign [])
      else findHeader rest

/-- Column inference from one data cell (_infer_columns_from_data, first
pass). -/
def inferCellAssign (m : ColMap) (ic : Nat × String) : ColMap :=
  let i := ic.1
  let cell0 := ic.2
  if cell0 = "" || pyStrip cell0 = "" then m
  else
    let cell := pyStrip cell0
    if !cmHas m "date" && (isDateStr cell || looksLikeDate cell) then cmSet m "date" i
    else if isAmount cell then
      if i = 3 && !cmHas m "debit" then cmSet m "debit" i
      else if i = 4 && !cmHas m "credit" then cmSet m "credit" i
      else if i = 5 && !cmHas m "balance" then cmSet m "balance" i
      else if !cmHas m "balance" then cmSet m "balance" i
      else m
    else if !cmHas m "reference" && isRefLike cell then cmSet m "reference" i
    else m

/-- Second pass of _infer_columns_from_data: description is the first column
holding text longer than ten characters not already claimed.  The inner break
of the source is equivalent to guarding on description being unbound. -/
def descAssign (m : ColMap) (sample : List (List String)) : ColMap :=
  sample.foldl
    (fun m row =>
      if row = [] then m
      else
        (row.enum).foldl
          (fun m ic =>
            let i := ic.1
            let cell := ic.2
            if cell ≠ "" && 10 < strLen (pyStrip cell) && !(cmValues m).contains i &&
                !isDateStr cell && !isAmount cell && !cmHas m "description" then
              cmSet m "description" i
            else m)
          m)
    m

/-- main.py _infer_columns_from_data over the first ten rows. -/
def inferColumnsFromData (table : List (List String)) : ColMap :=
  if table = [] then []
  else
    let sample := table.take 10
    let m := sample.foldl
      (fun m row =>
        if row = [] ∨ row.length < 3 then m
        else (row.enum).foldl inferCellAssign m)
      []
    descAssign m sample

/-- Field write of _extract_transaction_from_row for one mapping entry. -/
def extractField (row : List String) (t : Tx) (field : String) (col_idx : Nat) : Tx :=
  if col_idx < row.length ∧ row.getD col_idx "" ≠ "" then
    let cell_value := pyStrip (row.getD col_idx "")
    if field = "date" then { t with date := normalizeDate cell_value }
    else if field = "description" then { t with description := cell_value }
    else if field = "reference" then { t with chq_no := cell_value }
    else if field = "debit" ∨ field = "credit" ∨ field = "balance" then
      if isAmount cell_value then
        let amount := cleanAmount cell_value
        if field = "debit" then { t with debit := some amount }
        else if field = "credit" then { t with credit := some amount }
        else { t with balance := some amount }
      else t
    else t
  else t

/-- Validation tail of _extract_transaction_from_row: fall back to the
positional parser when the mapping populated neither date nor description,
then filter summary rows and amount-less drafts. -/
def validateExtracted (row : List String) (t : Tx) : Option Tx :=
  if t.date = "" ∧ t.description = "" then parseTableRow row
  else if t.description = "" ∧ t.date = "" then none
  else if isSummaryRow t.description then none
  else if t.debit = none ∧ t.credit = none ∧ t.balance = none then none
  else some t

/-- main.py _extract_transaction_from_row. -/
def extractTransactionFromRow (row : List String) (m : ColMap) : Option Tx :=
  if row = [] then none
  else validateExtracted row (m.foldl (fun acc e => extractField row acc e.1 e.2) emptyTx)

/-- main.py _parse_table_universal: find the header row and its column
mapping (or infer one from data), then extract a transaction from every
data row below the header. -/
def parseTableUniversal (table : List (List String)) : List Tx :=
  if table = [] ∨ table.length < 2 then []
  else
    let hdr := findHeader table.enum
    let column_mapping :=
      match hdr with
      | some im => im.2
      | none => inferColumnsFromData table
    let start_row :=
      match hdr with
      | some im => im.1 + 1
      | none => 0
    (table.drop start_row).foldl
      (fun acc row =>
        if row = [] ∨ row.length < 3 then acc
        else
          match extractTransactionFromRow row column_mapping with
          | some t => acc ++ [t]
          | none => acc)
      []

/-- Tokenizer of _parse_transaction_line_universal: split on runs of two or
more whitespace characters, or on a single tab, keeping empty pieces (the
regex split of the source). -/
def splitCols : List Char → List Char → List String
  | [], cur => [⟨cur.reverse⟩]
  | c :: rest, cur =>
    if pyIsSpace c &&
        (match rest with
         | r :: _ => pyIsSpace r
         | [] => false) then
      (⟨cur.reverse⟩ : String) :: splitCols (rest.dropWhile pyIsSpace) []
    else if c = '\t' then (⟨cur.reverse⟩ : String) :: splitCols rest []
    else splitCols rest (c :: cur)
termination_by cs _ => cs.length
decreasing_by
  · exact Nat.lt_succ_of_le (List.dropWhile_sublist pyIsSpace).length_le
  · exact Nat.lt_succ_self _
  · exact Nat.lt_succ_self _

/-- Tokenize one text line as _parse_transaction_line_universal does. -/
def tokenizeLine (line : String) : List String := splitCols line.data []

/-- Accumulator of the token loop of _parse_transaction_line_universal. -/
structure LineState where
  date : String := ""
  chq_no : String := ""
  debit : Option ℚ := none
  credit : Option ℚ := none
  balance : Option ℚ := none
  descParts : List String := []
deriving Repr

/-- One step of the token loop of _parse_transaction_line_universal: the
first date-like token binds the date; an amount token with a leading minus
binds debit, with a leading plus binds credit, otherwise balance first and
then debit; a reference-like token binds the reference once; everything else
joins the description. -/
def lineStep (st : LineState) (part0 : String) : LineState :=
  let part := pyStrip part0
  if part = "" then st
  else if st.date = "" && (isDateStr part || looksLikeDate part) then
    { st with date := normalizeDate part }
  else if isAmount part then
    let amount := cleanAmount part
    if startsWithC part '-' && st.debit = none then { st with debit := some amount }
    else if startsWithC part '+' && st.credit = none then { st with credit := some amount }
    else if st.balance = none then { st with balance := some amount }
    else if st.debit = none then { st with debit := some amount }
    else st
  else if st.chq_no = "" && isRefLike part then { st with chq_no := part }
  else { st with descParts := st.descParts ++ [part] }

/-- Validation tail of _parse_transaction_line_universal, with the joined
description passed explicitly. -/
def validateLineD (st : LineState) (description : String) : Option Tx :=
  if description = "" ∧ st.date = "" then none
  else if isSummaryRow description then none
  else if st.debit = none ∧ st.credit = none ∧ st.balance = none then none
  else
    some
      { date := st.date, chq_no := st.chq_no, description := description,
        debit := st.debit, credit := st.credit, balance := st.balance,
        init_br := "" }

/-- Validation tail of _parse_transaction_line_universal. -/
def validateLine (st : LineState) : Option Tx :=
  validateLineD st (String.intercalate " " st.descParts)

/-- main.py _parse_transaction_line_universal. -/
def parseTransactionLineUniversal (line : String) : Option Tx :=
  validateLine ((tokenizeLine line).foldl lineStep {})

/-- main.py _extract_from_text_universal: keep stripped lines of length at
least fifteen containing both a date-like and an amount-like substring, and
parse each one. -/
def extractFromTextUniversal (text : String) : List Tx :=
  (splitOnCharL '\n' text.data).foldl
    (fun acc lcs =>
      let line := pyStrip ⟨lcs⟩
      if strLen line < 15 then acc
      else if containsDate line && containsAmount line then
        match parseTransactionLineUniversal line with
        | some t => acc ++ [t]
        | none => acc
      else acc)
    []

/-- Python str.split() with no argument: split on whitespace runs, dropping
empty pieces (used by the older _parse_text_line). -/
def splitWsAll : List Char → List String
  | [] => []
  | c :: t =>
    if pyIsSpace c then splitWsAll t
    else
      (⟨(c :: t).takeWhile (fun d => !pyIsSpace d)⟩ : String) ::
        splitWsAll ((c :: t).dropWhile (fun d => !pyIsSpace d))
termination_by cs => cs.length
decreasing_by
  · exact Nat.lt_succ_self _
  · rw [List.dropWhile_cons, if_pos (by simp [*])]
    exact Nat.lt_succ_of_le (List.dropWhile_sublist _).length_le

/-- Accumulator of the token loop of the older _parse_text_line. -/
structure TLState where
  tran_date : String := ""
  chq_no : String := ""
  descParts : List String := []
  debit : Option ℚ := none
  credit : Option ℚ := none
  balance : Option ℚ := none
  init_br : String := ""
deriving Repr

/-- One step of the token loop of _parse_text_line: any date-like token
(re)binds the date; a digit token of three or more characters binds the
cheque number (up to eight characters) or the branch code; an amount token
binds debit first and then balance, absolute values taken; everything else
joins the description. -/
def textLineStep (st : TLState) (part : String) : TLState :=
  if isDateStr part then { st with tran_date := part }
  else if pyIsDigitStr part && 3 ≤ strLen part then
    if st.chq_no = "" && strLen part ≤ 8 then { st with chq_no := part }
    else if st.init_br = "" then { st with init_br := part }
    else st
  else if isAmount part then
    let amount_val := cleanAmount part
    if st.debit = none then { st with debit := some |amount_val| }
    else if st.balance = none then { st with balance := some |amount_val| }
    else st
  else { st with descParts := st.descParts ++ [part] }

/-- Credit keywords of _parse_text_line (the last entry is the literal
string of the source, matched as a plain substring). -/
def creditKeywords : List String :=
  ["credit", "deposit", "salary", "interest", "refund", "cashback", "neft.*credit"]

/-- main.py _parse_text_line (the older text parser, kept in the source but
reachable only from the unused _extract_from_text): single-space tokens,
debit-then-balance amount order, and a keyword pass that moves the debit to
the credit slot. -/
def parseTextLine (line : String) : Option Tx :=
  let st := (splitWsAll line.data).foldl textLineStep {}
  let particulars := pyStrip (String.intercalate " " st.descParts)
  if isSummaryRow particulars then none
  else if st.tran_date = "" ∧ st.descParts = [] then none
  else if st.debit = none ∧ st.credit = none then none
  else
    let moved : Option ℚ × Option ℚ :=
      if particulars ≠ "" ∧ st.debit ≠ none ∧
          (creditKeywords.any (fun k => containsSub (pyLower particulars) k)) = true then
        (none, st.debit)
      else (st.debit, st.credit)
    some
      { date := if st.tran_date ≠ "" then normalizeDate st.tran_date else "",
        chq_no := st.chq_no,
        description := if particulars = "" then "Transaction" else particulars,
        debit := moved.1, credit := moved.2, balance := st.balance,
        init_br := st.init_br }

/-- The deduplication key: the five dict entries read by _remove_duplicates.
Every transaction dict built by this engine carries all five keys, so the
get defaults of the source never fire and the optional amounts are compared
exactly as stored (None is distinct from zero). -/
abbrev TxKey := String × String × Option ℚ × Option ℚ × Option ℚ

/-- Key of one transaction. -/
def txKey (t : Tx) : TxKey := (t.date, t.description, t.debit, t.credit, t.balance)

/-- Loop of _remove_duplicates with its seen set. -/
def removeDupsGo (seen : List TxKey) : List Tx → List Tx
  | [] => []
  | t :: ts =>
    if txKey t ∈ seen then removeDupsGo seen ts
    else t :: removeDupsGo (txKey t :: seen) ts

/-- main.py _remove_duplicates: keep the first occurrence of each key. -/
def removeDuplicates (ts : List Tx) : List Tx := removeDupsGo [] ts

/-- The key as claim C5 words it: the missing amount slots replaced by zero.
This definition follows the words of the specification and exists only to be
compared with txKey. -/
def claimKeyC5 (t : Tx) : String × String × ℚ × ℚ × ℚ :=
  (t.date, t.description, t.debit.getD 0, t.credit.getD 0, t.balance.getD 0)

/-- Day count of a month as datetime validates it. -/
def daysInMonth (y m : Nat) : Nat :=
  if m = 2 then if (y % 4 = 0 ∧ y % 100 ≠ 0) ∨ y % 400 = 0 then 29 else 28
  else if m = 4 ∨ m = 6 ∨ m = 9 ∨ m = 11 then 30
  else 31

/-- main.py _parse_date_for_sort: split the date on dashes, build
datetime(year, month, day), and fall back to datetime.min on any failure.
The datetime value (y, m, d) is encoded order-preservingly as
y * 10000 + m * 100 + d; datetime.min is (1, 1, 1), encoded 10101. -/
def parseDateForSort (date_str : String) : Nat :=
  if date_str = "" then 10101
  else
    match splitOnCharL '-' date_str.data with
    | [ds, ms, ys] =>
      match (⟨ys⟩ : String).toInt?, (⟨ms⟩ : String).toInt?, (⟨ds⟩ : String).toInt? with
      | some y, some m, some d =>
        if 1 ≤ y ∧ y ≤ 9999 ∧ 1 ≤ m ∧ m ≤ 12 ∧ 1 ≤ d ∧
            d ≤ (daysInMonth y.toNat m.toNat : Int) then
          y.toNat * 10000 + m.toNat * 100 + d.toNat
        else 10101
      | _, _, _ => 10101
    | _ => 10101

/-- Sort key of one transaction. -/
def txDateKey (t : Tx) : Nat := parseDateForSort t.date

/-- The sorting relation: ascending by parsed date. -/
def keyLE (a b : Tx) : Prop := txDateKey a ≤ txDateKey b

instance : DecidableRel keyLE :=
  fun a b => inferInstanceAs (Decidable (txDateKey a ≤ txDateKey b))

instance : IsTotal Tx keyLE := ⟨fun a b => Nat.le_total (txDateKey a) (txDateKey b)⟩

instance : IsTrans Tx keyLE := ⟨fun _ _ _ => Nat.le_trans⟩

/-- The stable ascending sort of process_pdf (Python list.sort is stable; a
stable sort for a total preorder is unique, and insertion sort realises
it). -/
def sortTransactions (ts : List Tx) : List Tx := List.insertionSort keyLE ts

/-- Bank pattern table of main.py, in its fixed dict insertion order. -/
def bankPatterns : List (String × List String) :=
  [("sbi", ["state bank of india", "sbi", "state bank"]),
   ("hdfc", ["hdfc bank", "hdfc", "housing development finance"]),
   ("icici", ["icici bank", "icici", "industrial credit"]),
   ("axis", ["axis bank", "axis"]),
   ("pnb", ["punjab national bank", "pnb"]),
   ("kotak", ["kotak mahindra bank", "kotak"]),
   ("indusind", ["indusind bank", "indusind"]),
   ("yes", ["yes bank", "yes"]),
   ("bob", ["bank of baroda", "baroda"]),
   ("canara", ["canara bank", "canara"]),
   ("union", ["union bank", "union"]),
   ("indian", ["indian bank", "indian"]),
   ("central", ["central bank", "central"]),
   ("idbi", ["idbi bank", "idbi"]),
   ("idfc", ["idfc first bank", "idfc"])]

/-- Display-name table of main.py. -/
def bankDisplayNames : List (String × String) :=
  [("sbi", "State Bank of India"), ("hdfc", "HDFC Bank"),
   ("icici", "ICICI Bank"), ("axis", "Axis Bank"),
   ("pnb", "Punjab National Bank"), ("kotak", "Kotak Mahindra Bank"),
   ("indusind", "IndusInd Bank"), ("yes", "Yes Bank"),
   ("bob", "Bank of Baroda"), ("canara", "Canara Bank"),
   ("union", "Union Bank of India"), ("indian", "Indian Bank"),
   ("central", "Central Bank of India"), ("idbi", "IDBI Bank"),
   ("idfc", "IDFC First Bank")]

/-- Scan of detect_bank over the pattern table: first bank whose pattern
list contains a substring of the lowered text. -/
def detectBankAux (text_lower : String) : List (String × List String) → Option String
  | [] => none
  | e :: rest =>
    if e.2.any (fun p => containsSub text_lower p) then some e.1
    else detectBankAux text_lower rest

/-- main.py detect_bank: None models the Python None returned when no
pattern matches. -/
def detectBank (text : String) : Option String :=
  detectBankAux (pyLower text) bankPatterns

/-- main.py get_bank_display_name: dict get with the Unknown Bank default
(a missing code, or None, both fall through to the default). -/
def getBankDisplayName (bank_code : Option String) : String :=
  match bankDisplayNames.find? (fun e => e.1 == bank_code.getD "") with
  | some e => e.2
  | none => "Unknown Bank"

/-- One page of the decoded document: its extracted text (empty when the
decoder yields nothing) and its extracted tables. -/
structure Page where
  text : String
  tables : List (List (List String))

/-- The outcome dict of process_pdf.  The decoder-exception branch (password
and decode failures) is outside the embedded input space: pages arrive
already decoded. -/
structure PdfResult where
  success : Bool
  error : Option String
  transactions : List Tx
  bank_name : String
  transaction_count : Nat
  date_range : Option (String × String)
deriving DecidableEq, Repr

/-- Per-page transaction collection of process_pdf: every table of the page,
followed unconditionally by text extraction whenever the page has text. -/
def pageTransactions (p : Page) : List Tx :=
  (if p.tables ≠ [] then
    p.tables.foldl (fun acc tbl => acc ++ parseTableUniversal tbl) []
  else []) ++
    (if p.text ≠ "" then extractFromTextUniversal p.text else [])

/-- The page loop of process_pdf. -/
def collectTransactions (pages : List Page) : List Tx :=
  pages.foldl (fun acc p => acc ++ pageTransactions p) []

/-- The concatenated text of all pages, used for bank detection. -/
def fullText (pages : List Page) : String :=
  pages.foldl (fun acc p => if p.text ≠ "" then acc ++ p.text ++ "\n" else acc) ""

/-- Tail of process_pdf after the page loop: deduplicate, fail when nothing
remains, otherwise sort by parsed date and compute the date range from the
non-empty dates of the sorted list. -/
def finalize (detected_bank : Option String) (ts : List Tx) : PdfResult :=
  let transactions := removeDuplicates ts
  if transactions = [] then
    { success := false, error := some "No valid transactions found in PDF",
      transactions := [], bank_name := getBankDisplayName detected_bank,
      transaction_count := 0, date_range := none }
  else
    let sorted := sortTransactions transactions
    let dates := (sorted.map Tx.date).filter (fun d => !(d == ""))
    let date_range : Option (String × String) :=
      match dates with
      | [] => none
      | d :: rest => some (d, List.getLastD rest d)
    { success := true, error := none, transactions := sorted,
      bank_name := getBankDisplayName detected_bank,
      transaction_count := sorted.length, date_range := date_range }

/-- main.py process_pdf on an already-decoded document. -/
def processDocument (pages : List Page) : PdfResult :=
  finalize (detectBank (fullText pages)) (collectTransactions pages)

/-- Whether all amounts present in a transaction are non-negative. -/
def txAmountsNonneg (t : Tx) : Prop :=
  (∀ q : ℚ, t.debit = some q → 0 ≤ q) ∧ (∀ q : ℚ, t.credit = some q → 0 ≤ q) ∧
    (∀ q : ℚ, t.balance = some q → 0 ≤ q)

/-- Whether all amounts present in a line-parsing state are non-negative. -/
def lsAmountsNonneg (st : LineState) : Prop :=
  (∀ q : ℚ, st.debit = some q → 0 ≤ q) ∧ (∀ q : ℚ, st.credit = some q → 0 ≤ q) ∧
    (∀ q : ℚ, st.balance = some q → 0 ≤ q)

/-- The example table of the specification: a seven-column header row and one
data row. -/
def c3Table : List (List String) :=
  [["Tran Date", "Chq No", "Particulars", "Debit", "Credit", "Balance", "Init.Br"],
   ["01-06-2025", "", "Salary Credit", "", "50000.00", "150000.00", ""]]

/-- The transaction the example table yields. -/
def txSalary : Tx :=
  { date := "01-06-2025", chq_no := "", description := "Salary Credit",
    debit := none, credit := some 50000, balance := some 150000, init_br := "" }

/-- A text line parseable by the fallback extractor. -/
def rentLine : String := "05-06-2025  Rent Payment  2000.00"

/-- The transaction the fallback line yields. -/
def txRent : Tx :=
  { date := "05-06-2025", chq_no := "", description := "Rent Payment",
    debit := none, credit := none, balance := some 2000, init_br := "" }

/-- A page whose table already yields a transaction and whose text yields
another one. -/
def c6Page : Page := { text := rentLine, tables := [c3Table] }

/-- The transaction produced by the date-and-amount-only row. -/
def txPlaceholder : Tx :=
  { date := "01-06-2025", chq_no := "", description := "Transaction",
    debit := some 500, credit := none, balance := none, init_br := "" }

/-- A transaction with no date (reachable: description and amount only). -/
def txNoDate : Tx :=
  { date := "", chq_no := "", description := "No Date Row", debit := none,
    credit := none, balance := some 5, init_br := "" }

/-- A dated transaction. -/
def txDated : Tx :=
  { date := "01-06-2025", chq_no := "", description := "Salary", debit := none,
    credit := some 10, balance := none, init_br := "" }

/-- A transaction with a zero debit entry (reachable: a mapped debit cell
reading 0.00). -/
def txZeroDebit : Tx :=
  { date := "01-06-2025", chq_no := "", description := "Coffee Shop",
    debit := some 0, credit := none, balance := some 5, init_br := "" }

/-- The same transaction with the zero in the credit slot instead. -/
def txZeroCredit : Tx :=
  { date := "01-06-2025", chq_no := "", description := "Coffee Shop",
    debit := none, credit := some 0, balance := some 5, init_br := "" }

/-- A line whose amount token carries a leading plus sign. -/
def plusLine : String := "01-06-2025  Stuff Pay  +135.00"

/-- The transaction produced from the plus-signed line. -/
def txPlus : Tx :=
  { date := "01-06-2025", chq_no := "", description := "Stuff Pay",
    debit := none, credit := some 135, balance := none, init_br := "" }

/-! Helper lemmas. -/

/-- A predicate preserved by every step of a left fold is preserved by the
fold. -/
theorem foldlPreserves {α β : Type} (P : α → Prop) (f : α → β → α)
    (h : ∀ a b, P a → P (f a b)) : ∀ (l : List β) (a : α), P a → P (l.foldl f a)
  | [], _, ha => ha
  | b :: l, a, ha => foldlPreserves P f h l (f a b) (h a b ha)

/-- The packaged result of the positional table parser has a non-empty date
or description, and a debit or credit entry. -/
theorem validateTableRow_valid (st : RowState) (t : Tx)
    (h : validateTableRow st = some t) :
    (t.date ≠ "" ∨ t.description ≠ "") ∧
      (t.debit ≠ none ∨ t.credit ≠ none ∨ t.balance ≠ none) := by
  unfold validateTableRow at h
  split_ifs at h with h1 h2 h3
  injection h with h
  subst h
  refine ⟨Or.inr ?_, ?_⟩
  · show (if st.particulars = "" then "Transaction" else st.particulars) ≠ ""
    by_cases hp : st.particulars = ""
    · rw [if_pos hp]; decide
    · rw [if_neg hp]; exact hp
  · rcases not_and_or.mp h3 with hd | hc
    · exact Or.inl (by simpa [packageTableRow] using hd)
    · exact Or.inr (Or.inl (by simpa [packageTableRow] using hc))

/-- _parse_table_row builds only transactions with a non-empty date or
description and a set amount. -/
theorem parseTableRow_valid (row : List String) (t : Tx)
    (h : parseTableRow row = some t) :
    (t.date ≠ "" ∨ t.description ≠ "") ∧
      (t.debit ≠ none ∨ t.credit ≠ none ∨ t.balance ≠ none) := by
  unfold parseTableRow at h
  split_ifs at h
  exact validateTableRow_valid _ _ h

/-- _extract_transaction_from_row builds only transactions with a non-empty
date or description and a set amount. -/
theorem extractTransactionFromRow_valid (row : List String) (m : ColMap) (t : Tx)
    (h : extractTransactionFromRow row m = some t) :
    (t.date ≠ "" ∨ t.description ≠ "") ∧
      (t.debit ≠ none ∨ t.credit ≠ none ∨ t.balance ≠ none) := by
  unfold extractTransactionFromRow at h
  split_ifs at h
  unfold validateExtracted at h
  split_ifs at h with h1 h2 h3 h4
  · exact parseTableRow_valid _ _ h
  · injection h with h
    subst h
    refine ⟨not_and_or.mp h1, ?_⟩
    rcases not_and_or.mp h4 with hd | hcb
    · exact Or.inl hd
    · exact Or.inr (not_and_or.mp hcb)

/-- _parse_transaction_line_universal builds only transactions with a
non-empty date or description and a set amount. -/
theorem parseTransactionLineUniversal_valid (line : String) (t : Tx)
    (h : parseTransactionLineUniversal line = some t) :
    (t.date ≠ "" ∨ t.description ≠ "") ∧
      (t.debit ≠ none ∨ t.credit ≠ none ∨ t.balance ≠ none) := by
  unfold parseTransactionLineUniversal validateLine validateLineD at h
  split_ifs at h with h1 h2 h3
  injection h with h
  subst h
  refine ⟨?_, ?_⟩
  · rcases not_and_or.mp h1 with hd | hdate
    · exact Or.inr hd
    · exact Or.inl hdate
  · rcases not_and_or.mp h3 with hd | hcb
    · exact Or.inl hd
    · exact Or.inr (not_and_or.mp hcb)

/-! Claim theorems. -/

/-- Claim C1: each of the three assembly functions constructs a transaction
only when the result has a non-empty date or a non-empty description and at
least one of the debit, credit and balance slots set; whenever both date and
description end up empty, or no amount slot received a value, assembly
returns nothing. -/
theorem C1_assembly_validity :
    (∀ (row : List String) (m : ColMap) (t : Tx),
        extractTransactionFromRow row m = some t →
          (t.date ≠ "" ∨ t.description ≠ "") ∧
            (t.debit ≠ none ∨ t.credit ≠ none ∨ t.balance ≠ none)) ∧
      (∀ (row : List String) (t : Tx),
          parseTableRow row = some t →
            (t.date ≠ "" ∨ t.description ≠ "") ∧
              (t.debit ≠ none ∨ t.credit ≠ none ∨ t.balance ≠ none)) ∧
      (∀ (line : String) (t : Tx),
          parseTransactionLineUniversal line = some t →
            (t.date ≠ "" ∨ t.description ≠ "") ∧
              (t.debit ≠ none ∨ t.credit ≠ none ∨ t.balance ≠ none)) :=
  ⟨extractTransactionFromRow_valid, parseTableRow_valid,
    parseTransactionLineUniversal_valid⟩

/-- Witness for C1 at a concrete row. -/
theorem C1_assembly_validity_witness :
    (txPlaceholder.date ≠ "" ∨ txPlaceholder.description ≠ "") ∧
      (txPlaceholder.debit ≠ none ∨ txPlaceholder.credit ≠ none ∨
        txPlaceholder.balance ≠ none) :=
  C1_assembly_validity.2.1 ["01-06-2025", "", "", "500.00"] txPlaceholder
    (by with_unfolding_all rfl)

/-- Claim C3: the specification's example table parses to exactly one
transaction with the stated date, description, unset debit, credit 50000 and
balance 150000. -/
theorem C3_example_table : parseTableUniversal c3Table = [txSalary] := by
  with_unfolding_all rfl

/-- Claim C10: the summary-row check returns false on the empty description
(the short-description drop rule does not fire on it), and a row carrying
only a date and an amount passes the filters and is emitted with the literal
placeholder description, both through the positional parser and through the
mapped extractor falling back to it on an empty mapping. -/
theorem C10_empty_description :
    isSummaryRow "" = false ∧
      parseTableRow ["01-06-2025", "", "", "500.00"] = some txPlaceholder ∧
      extractTransactionFromRow ["01-06-2025", "", "", "500.00"] [] = some txPlaceholder :=
  ⟨by rfl, by with_unfolding_all rfl, by with_unfolding_all rfl⟩

/-- The main normaliser never returns a negative amount. -/
theorem cleanAmount_nonneg (s : String) : 0 ≤ cleanAmount s := by
  simp only [cleanAmount]
  split
  · exact le_refl 0
  · split
    · exact abs_nonneg _
    · exact le_refl 0

/-- One mapped-field write preserves non-negativity of the draft amounts. -/
theorem extractField_nonneg (row : List String) (t : Tx) (f : String) (c : Nat)
    (h : txAmountsNonneg t) : txAmountsNonneg (extractField row t f c) := by
  obtain ⟨hd, hc, hb⟩ := h
  refine ⟨fun q hq => ?_, fun q hq => ?_, fun q hq => ?_⟩ <;>
  · simp only [extractField] at hq
    split_ifs at hq <;>
      first
        | exact hd q hq
        | exact hc q hq
        | exact hb q hq
        | (rcases Option.some.inj hq with rfl; exact cleanAmount_nonneg _)

/-- The whole mapped extraction fold yields non-negative draft amounts. -/
theorem extractFold_nonneg (row : List String) (m : ColMap) :
    txAmountsNonneg (m.foldl (fun acc e => extractField row acc e.1 e.2) emptyTx) :=
  foldlPreserves _ _ (fun a b hP => extractField_nonneg row a b.1 b.2 hP) m emptyTx
    ⟨fun _ h => by simp [emptyTx] at h, fun _ h => by simp [emptyTx] at h,
      fun _ h => by simp [emptyTx] at h⟩

/-- The packaged positional-parser result carries non-negative amounts (the
source takes absolute values just before returning). -/
theorem validateTableRow_nonneg (st : RowState) (t : Tx)
    (h : validateTableRow st = some t) : txAmountsNonneg t := by
  unfold validateTableRow at h
  split_ifs at h
  injection h with h
  subst h
  refine ⟨fun q hq => ?_, fun q hq => ?_, fun q hq => ?_⟩ <;>
  · simp only [packageTableRow] at hq
    rcases Option.map_eq_some'.mp hq with ⟨x, _, rfl⟩
    exact abs_nonneg x

/-- _parse_table_row stores only non-negative amounts. -/
theorem parseTableRow_nonneg (row : List String) (t : Tx)
    (h : parseTableRow row = some t) : txAmountsNonneg t := by
  unfold parseTableRow at h
  split_ifs at h
  exact validateTableRow_nonneg _ _ h

/-- _extract_transaction_from_row stores only non-negative amounts. -/
theorem extractTransactionFromRow_nonneg (row : List String) (m : ColMap) (t : Tx)
    (h : extractTransactionFromRow row m = some t) : txAmountsNonneg t := by
  unfold extractTransactionFromRow at h
  split_ifs at h
  unfold validateExtracted at h
  split_ifs at h
  · exact parseTableRow_nonneg _ _ h
  · injection h with h
    subst h
    exact extractFold_nonneg row m

/-- One token step preserves non-negativity of the line-state amounts. -/
theorem lineStep_nonneg (st : LineState) (p : String) (h : lsAmountsNonneg st) :
    lsAmountsNonneg (lineStep st p) := by
  obtain ⟨hd, hc, hb⟩ := h
  refine ⟨fun q hq => ?_, fun q hq => ?_, fun q hq => ?_⟩ <;>
  · simp only [lineStep] at hq
    split_ifs at hq <;>
      first
        | exact hd q hq
        | exact hc q hq
        | exact hb q hq
        | (rcases Option.some.inj hq with rfl; exact cleanAmount_nonneg _)

/-- The whole token fold yields non-negative amounts. -/
theorem lineFold_nonneg (ps : List String) : lsAmountsNonneg (ps.foldl lineStep {}) :=
  foldlPreserves _ _ (fun a b hP => lineStep_nonneg a b hP) ps {}
    ⟨fun _ h => by simp at h, fun _ h => by simp at h, fun _ h => by simp at h⟩

/-- _parse_transaction_line_universal stores only non-negative amounts. -/
theorem parseTransactionLineUniversal_nonneg (line : String) (t : Tx)
    (h : parseTransactionLineUniversal line = some t) : txAmountsNonneg t := by
  unfold parseTransactionLineUniversal validateLine validateLineD at h
  split_ifs at h
  injection h with h
  subst h
  obtain ⟨hd, hc, hb⟩ := lineFold_nonneg (tokenizeLine line)
  exact ⟨hd, hc, hb⟩

/-- Claim C2, amended: in the main engine (main.py), normalisation always
returns a non-negative magnitude, the parenthesized example yields 1250.50,
parse failure yields 0, and every amount stored in a constructed transaction
is non-negative.  The secondary backend's clean_amount instead preserves
sign; its callers handle signs downstream (see the counterexample). -/
theorem C2_amount_magnitudes :
    (∀ s : String, 0 ≤ cleanAmount s) ∧
      cleanAmount "(1,250.50)" = (1250.5 : ℚ) ∧
      cleanAmount "garbage" = 0 ∧
      (∀ (row : List String) (m : ColMap) (t : Tx),
          extractTransactionFromRow row m = some t → txAmountsNonneg t) ∧
      (∀ (row : List String) (t : Tx),
          parseTableRow row = some t → txAmountsNonneg t) ∧
      (∀ (line : String) (t : Tx),
          parseTransactionLineUniversal line = some t → txAmountsNonneg t) :=
  ⟨cleanAmount_nonneg, by with_unfolding_all rfl, by with_unfolding_all rfl,
    extractTransactionFromRow_nonneg, parseTableRow_nonneg,
    parseTransactionLineUniversal_nonneg⟩

/-- Witness for C2 at a concrete row. -/
theorem C2_amount_magnitudes_witness : txAmountsNonneg txPlaceholder :=
  C2_amount_magnitudes.2.2.2.2.1 ["01-06-2025", "", "", "500.00"] txPlaceholder
    (by with_unfolding_all rfl)

/-- Counterexample for C2 as stated: the cited clean_amount of
src/backend/pdf_processor.py returns the negated value for a parenthesized
input, returns a minus-signed input unchanged, and raises (none) on a
parenthesized input whose body does not parse. -/
theorem C2_counterexample :
    cleanAmountPP "(1,250.50)" = some (-(1250.5 : ℚ)) ∧
      cleanAmountPP "-1,250.50" = some (-(1250.5 : ℚ)) ∧
      cleanAmountPP "(abc)" = none :=
  ⟨by with_unfolding_all rfl, by with_unfolding_all rfl, by with_unfolding_all rfl⟩

/-- The kept list is a sublist of the input: relative order is preserved and
elements are only ever dropped. -/
theorem removeDupsGo_sublist (seen : List TxKey) :
    ∀ ts : List Tx, (removeDupsGo seen ts).Sublist ts
  | [] => List.Sublist.refl []
  | t :: ts => by
    unfold removeDupsGo
    split_ifs
    · exact (removeDupsGo_sublist seen ts).cons t
    · exact (removeDupsGo_sublist (txKey t :: seen) ts).cons₂ t

/-- Every kept transaction has a key outside the seen set. -/
theorem removeDupsGo_keys_notin (seen : List TxKey) :
    ∀ (ts : List Tx) (u : Tx), u ∈ removeDupsGo seen ts → txKey u ∉ seen
  | [], u, hu => absurd hu (by simp [removeDupsGo])
  | t :: ts, u, hu => by
    unfold removeDupsGo at hu
    split_ifs at hu with hmem
    · exact removeDupsGo_keys_notin seen ts u hu
    · rcases List.mem_cons.mp hu with rfl | hu'
      · exact hmem
      · have hnot := removeDupsGo_keys_notin (txKey t :: seen) ts u hu'
        exact fun hk => hnot (List.mem_cons_of_mem _ hk)

/-- The kept keys are pairwise distinct. -/
theorem removeDupsGo_nodup (seen : List TxKey) :
    ∀ ts : List Tx, ((removeDupsGo seen ts).map txKey).Nodup
  | [] => by simp [removeDupsGo]
  | t :: ts => by
    unfold removeDupsGo
    split_ifs with hmem
    · exact removeDupsGo_nodup seen ts
    · simp only [List.map_cons, List.nodup_cons]
      refine ⟨?_, removeDupsGo_nodup (txKey t :: seen) ts⟩
      intro hk
      rcases List.mem_map.mp hk with ⟨u, hu, hku⟩
      exact removeDupsGo_keys_notin (txKey t :: seen) ts u hu
        (by rw [hku]; exact List.mem_cons_self _ _)

/-- Every input transaction's key is either already seen or represented in
the kept list. -/
theorem removeDupsGo_covers (seen : List TxKey) :
    ∀ (ts : List Tx) (t : Tx), t ∈ ts →
      txKey t ∈ seen ∨ ∃ u ∈ removeDupsGo seen ts, txKey u = txKey t
  | [], t, ht => absurd ht (List.not_mem_nil t)
  | s :: ts, t, ht => by
    unfold removeDupsGo
    split_ifs with hmem
    · rcases List.mem_cons.mp ht with rfl | ht'
      · exact Or.inl hmem
      · exact removeDupsGo_covers seen ts t ht'
    · rcases List.mem_cons.mp ht with rfl | ht'
      · exact Or.inr ⟨t, List.mem_cons_self _ _, rfl⟩
      · rcases removeDupsGo_covers (txKey s :: seen) ts t ht' with hk | ⟨u, hu, hku⟩
        · rcases List.mem_cons.mp hk with heq | hseen
          · exact Or.inr ⟨s, List.mem_cons_self _ _, heq.symm⟩
          · exact Or.inl hseen
        · exact Or.inr ⟨u, List.mem_cons_of_mem _ hu, hku⟩

/-- Every kept transaction is the first element of the input carrying its
key. -/
theorem removeDupsGo_first (seen : List TxKey) :
    ∀ (ts : List Tx) (u : Tx), u ∈ removeDupsGo seen ts →
      ∃ pre post, ts = pre ++ u :: post ∧ ∀ p ∈ pre, txKey p ≠ txKey u
  | [], u, hu => absurd hu (by simp [removeDupsGo])
  | t :: ts, u, hu => by
    unfold removeDupsGo at hu
    split_ifs at hu with hmem
    · obtain ⟨pre, post, hsplit, hpre⟩ := removeDupsGo_first seen ts u hu
      refine ⟨t :: pre, post, by rw [hsplit]; rfl, ?_⟩
      intro p hp
      rcases List.mem_cons.mp hp with heq | hp'
      · intro hk
        refine removeDupsGo_keys_notin seen ts u hu ?_
        rw [← hk, heq]
        exact hmem
      · exact hpre p hp'
    · rcases List.mem_cons.mp hu with rfl | hu'
      · exact ⟨[], ts, rfl, by simp⟩
      · obtain ⟨pre, post, hsplit, hpre⟩ :=
          removeDupsGo_first (txKey t :: seen) ts u hu'
        refine ⟨t :: pre, post, by rw [hsplit]; rfl, ?_⟩
        intro p hp
        rcases List.mem_cons.mp hp with heq | hp'
        · intro hk
          refine removeDupsGo_keys_notin (txKey t :: seen) ts u hu' ?_
          rw [← hk, heq]
          exact List.mem_cons_self _ _
        · exact hpre p hp'

/-- An exact table-and-text duplicate collapses to its first instance. -/
theorem removeDuplicates_pair (t : Tx) : removeDuplicates [t, t] = [t] := by
  simp [removeDuplicates, removeDupsGo]

/-- Claim C5, amended: deduplication keys on the five stored entries exactly
as stored (a missing amount is None, not zero, so a None slot and a zero
slot never collide); it keeps exactly the first occurrence of each key in
list order, drops every later transaction with an equal key, and preserves
the relative order of the kept elements; an identical transaction seen twice
collapses to the first instance. -/
theorem C5_dedup_first_occurrence :
    (∀ ts : List Tx, (removeDuplicates ts).Sublist ts) ∧
      (∀ ts : List Tx, ((removeDuplicates ts).map txKey).Nodup) ∧
      (∀ (ts : List Tx) (t : Tx), t ∈ ts →
        ∃ u ∈ removeDuplicates ts, txKey u = txKey t) ∧
      (∀ (ts : List Tx) (u : Tx), u ∈ removeDuplicates ts →
        ∃ pre post, ts = pre ++ u :: post ∧ ∀ p ∈ pre, txKey p ≠ txKey u) ∧
      (∀ t : Tx, removeDuplicates [t, t] = [t]) :=
  ⟨fun ts => removeDupsGo_sublist [] ts,
    fun ts => removeDupsGo_nodup [] ts,
    fun ts t ht => (removeDupsGo_covers [] ts t ht).resolve_left (by simp),
    fun ts u hu => removeDupsGo_first [] ts u hu,
    removeDuplicates_pair⟩

/-- Witness for C5 at a concrete list. -/
theorem C5_dedup_first_occurrence_witness :
    ∃ u ∈ removeDuplicates [txZeroDebit, txZeroCredit], txKey u = txKey txZeroDebit :=
  C5_dedup_first_occurrence.2.2.1 [txZeroDebit, txZeroCredit] txZeroDebit
    (List.mem_cons_self _ _)

/-- Counterexample for C5 as stated: two distinct transactions whose
or-zero composite keys coincide (a zero debit against an absent debit) are
both kept, because the code keys on the stored values and None is not
zero. -/
theorem C5_counterexample :
    claimKeyC5 txZeroDebit = claimKeyC5 txZeroCredit ∧
      txZeroDebit ≠ txZeroCredit ∧
      removeDuplicates [txZeroDebit, txZeroCredit] = [txZeroDebit, txZeroCredit] :=
  ⟨by with_unfolding_all rfl, by with_unfolding_all decide, by with_unfolding_all rfl⟩

/-- One token step either leaves the credit slot unchanged or fills it from
a plus-prefixed amount token. -/
theorem lineStep_credit (st : LineState) (p : String) :
    (lineStep st p).credit = st.credit ∨
      (startsWithC (pyStrip p) '+' = true ∧ isAmount (pyStrip p) = true) := by
  simp only [lineStep]
  split_ifs with h1 h2 h3 h4 h5 h6 h7 h8 <;>
    first
      | exact Or.inl rfl
      | exact Or.inr ⟨(Bool.and_eq_true_iff.mp h5).1, h3⟩

/-- Over a whole token list, the credit slot can only have been filled by a
plus-prefixed amount token. -/
theorem lineFold_credit :
    ∀ (ps : List String) (st : LineState),
      (ps.foldl lineStep st).credit ≠ none →
      st.credit ≠ none ∨
        ∃ p ∈ ps, startsWithC (pyStrip p) '+' = true ∧ isAmount (pyStrip p) = true
  | [], _, h => Or.inl h
  | p :: ps, st, h => by
    rcases lineFold_credit ps (lineStep st p) h with hstep | ⟨q, hq, hplus⟩
    · rcases lineStep_credit st p with heq | hplus
      · exact Or.inl (heq ▸ hstep)
      · exact Or.inr ⟨p, List.mem_cons_self _ _, hplus⟩
    · exact Or.inr ⟨q, List.mem_cons_of_mem _ hq, hplus⟩

/-- Claim C7, amended: in the live text-line parser the first date-like
token binds the date; an amount token with a leading minus binds debit and
with a leading plus binds credit; any other amount token binds balance
first and then debit, so credit never receives an unsigned amount and the
credit keywords of the description play no role; reference-like tokens bind
the reference once; the rest joins the description.  The general conjunct
states the credit discipline; the closed conjuncts exhibit the plus and the
balance-then-debit orders. -/
theorem C7_token_classification :
    (∀ (line : String) (t : Tx), parseTransactionLineUniversal line = some t →
        t.credit ≠ none →
        ∃ p ∈ tokenizeLine line,
          startsWithC (pyStrip p) '+' = true ∧ isAmount (pyStrip p) = true) ∧
      parseTransactionLineUniversal plusLine = some txPlus ∧
      parseTransactionLineUniversal "01-06-2025  Shop Visit  100.00  200.00" =
        some { date := "01-06-2025", chq_no := "", description := "Shop Visit",
               debit := some 200, credit := none, balance := some 100,
               init_br := "" } := by
  refine ⟨?_, by with_unfolding_all rfl, by with_unfolding_all rfl⟩
  intro line t h hc
  unfold parseTransactionLineUniversal validateLine validateLineD at h
  split_ifs at h
  injection h with h
  subst h
  rcases lineFold_credit (tokenizeLine line) {} (by exact hc) with hbase | hex
  · exact absurd rfl hbase
  · exact hex

/-- Witness for C7 at a concrete line. -/
theorem C7_token_classification_witness :
    ∃ p ∈ tokenizeLine plusLine,
      startsWithC (pyStrip p) '+' = true ∧ isAmount (pyStrip p) = true :=
  C7_token_classification.1 plusLine txPlus (by with_unfolding_all rfl)
    (by with_unfolding_all decide)

/-- Counterexample for C7 as stated: a minus-signed amount binds debit (not
credit) in the live parser; an unsigned amount binds balance (not debit)
even when the accumulated description contains the credit keywords salary
and credit; and the older text parser also binds the minus-signed amount to
debit. -/
theorem C7_counterexample :
    parseTransactionLineUniversal "01-06-2025  Rent Payment  -301.00" =
        some { date := "01-06-2025", chq_no := "", description := "Rent Payment",
               debit := some 301, credit := none, balance := none, init_br := "" } ∧
      parseTransactionLineUniversal "01-06-2025  Salary Credit  500.00" =
        some { date := "01-06-2025", chq_no := "", description := "Salary Credit",
               debit := none, credit := none, balance := some 500, init_br := "" } ∧
      parseTextLine "01-06-2025 Rent Payment -301.00" =
        some { date := "01-06-2025", chq_no := "", description := "Rent Payment",
               debit := some 301, credit := none, balance := none, init_br := "" } :=
  ⟨by with_unfolding_all rfl, by with_unfolding_all rfl, by with_unfolding_all rfl⟩

/-- A prefix test for a concatenation implies the prefix test for its left
part. -/
theorem isPrefixOf_of_append :
    ∀ (a b cs : List Char), List.isPrefixOf (a ++ b) cs = true →
      List.isPrefixOf a cs = true
  | [], _, cs, _ => by cases cs <;> rfl
  | _ :: _, _, [], h => by simp [List.isPrefixOf] at h
  | x :: a, b, c :: cs, h => by
    simp only [List.cons_append, List.isPrefixOf, Bool.and_eq_true] at h ⊢
    exact ⟨h.1, isPrefixOf_of_append a b cs h.2⟩

/-- Occurrence of a concatenation implies occurrence of its left part. -/
theorem subOccurs_of_append (a b : List Char) :
    ∀ hay, subOccurs (a ++ b) hay = true → subOccurs a hay = true
  | [], h => by
    cases a with
    | nil => rfl
    | cons x xs => simp [subOccurs] at h
  | c :: t, h => by
    simp only [subOccurs, Bool.or_eq_true] at h ⊢
    rcases h with hpre | hrec
    · exact Or.inl (isPrefixOf_of_append a b _ hpre)
    · exact Or.inr (subOccurs_of_append a b t hrec)

/-- A text containing the full HDFC marker contains the hdfc bank pattern. -/
theorem containsSub_hdfc (tl : String)
    (h : containsSub tl "hdfc bank ltd" = true) :
    containsSub tl "hdfc bank" = true := by
  unfold containsSub at h ⊢
  have hdata : ("hdfc bank ltd".data) = "hdfc bank".data ++ " ltd".data := by decide
  rw [hdata] at h
  exact subOccurs_of_append _ _ _ h

/-- The bank scan returns the first table entry with a matching pattern. -/
theorem detectBankAux_eq_find (tl : String) :
    ∀ table : List (String × List String),
      detectBankAux tl table =
        (table.find? (fun e => e.2.any (fun p => containsSub tl p))).map Prod.fst
  | [] => rfl
  | e :: rest => by
    by_cases h : (e.2.any (fun p => containsSub tl p)) = true
    · simp [detectBankAux, h]
    · simp [detectBankAux, h, detectBankAux_eq_find tl rest]

/-- A text containing the HDFC marker and no sbi pattern detects hdfc. -/
theorem detectBank_hdfc (text : String)
    (h1 : containsSub (pyLower text) "hdfc bank ltd" = true)
    (h2 : ∀ p ∈ (["state bank of india", "sbi", "state bank"] : List String),
        containsSub (pyLower text) p = false) :
    detectBank text = some "hdfc" := by
  have e1 := h2 "state bank of india" (by simp)
  have e2 := h2 "sbi" (by simp)
  have e3 := h2 "state bank" (by simp)
  have hh : containsSub (pyLower text) "hdfc bank" = true := containsSub_hdfc _ h1
  unfold detectBank
  simp only [bankPatterns, detectBankAux, List.any_cons, List.any_nil, e1, e2, e3, hh]
  simp

/-- Claim C9, amended: bank identification scans the fixed, ordered pattern
table and returns the first bank code with a substring present in the
lowered text (None when no entry matches, rendered as the Unknown Bank
display name); a text containing the HDFC marker in any case yields hdfc
with display name HDFC Bank provided no earlier-ordered bank pattern (the
sbi entry) also occurs in the text; the display-name lookup defaults to
Unknown Bank. -/
theorem C9_bank_identification :
    (∀ text : String,
        detectBank text =
          (bankPatterns.find?
            (fun e => e.2.any (fun p => containsSub (pyLower text) p))).map
              Prod.fst) ∧
      (∀ text : String,
          containsSub (pyLower text) "hdfc bank ltd" = true →
          (∀ p ∈ (["state bank of india", "sbi", "state bank"] : List String),
              containsSub (pyLower text) p = false) →
          detectBank text = some "hdfc" ∧
            getBankDisplayName (detectBank text) = "HDFC Bank") ∧
      getBankDisplayName none = "Unknown Bank" := by
  refine ⟨fun text => detectBankAux_eq_find (pyLower text) bankPatterns,
    fun text h1 h2 => ?_, by rfl⟩
  have hd := detectBank_hdfc text h1 h2
  exact ⟨hd, by rw [hd]; with_unfolding_all rfl⟩

/-- Witness for C9 at a concrete statement text. -/
theorem C9_bank_identification_witness :
    detectBank "Statement of HDFC BANK LTD account" = some "hdfc" ∧
      getBankDisplayName (detectBank "Statement of HDFC BANK LTD account") =
        "HDFC Bank" :=
  C9_bank_identification.2.1 "Statement of HDFC BANK LTD account"
    (by with_unfolding_all rfl) (by decide)

/-- Counterexample for C9 as stated: a text containing the HDFC marker that
also contains an sbi pattern earlier in the fixed order yields sbi, not
hdfc. -/
theorem C9_counterexample :
    containsSub (pyLower "State Bank of India HDFC BANK LTD") "hdfc bank ltd" = true ∧
      detectBank "State Bank of India HDFC BANK LTD" = some "sbi" ∧
      some "sbi" ≠ some "hdfc" :=
  ⟨by with_unfolding_all rfl, by with_unfolding_all rfl, by decide⟩

/-- A left fold appending the image of each element yields the concatenated
images. -/
theorem foldl_append_map {α β : Type} (f : β → List α) :
    ∀ (l : List β) (acc : List α),
      l.foldl (fun a p => a ++ f p) acc = acc ++ (l.map f).flatten
  | [], acc => by simp
  | b :: l, acc => by
    rw [List.foldl_cons, foldl_append_map f l (acc ++ f b)]
    simp

/-- Claim C6, amended: text extraction runs unconditionally on every page
with non-empty text — the combined list is, page by page, the table
transactions followed by the text transactions — and a transaction found
only in a page's text reaches the final output even when the page's tables
already yielded a transaction. -/
theorem C6_text_fallback_unconditional :
    (∀ pages : List Page,
        collectTransactions pages = (pages.map pageTransactions).flatten) ∧
      processDocument [c6Page] =
        { success := true, error := none, transactions := [txSalary, txRent],
          bank_name := "Unknown Bank", transaction_count := 2,
          date_range := some ("01-06-2025", "05-06-2025") } :=
  ⟨fun pages => foldl_append_map pageTransactions pages [],
    by with_unfolding_all rfl⟩

/-- Counterexample for C6 as stated: the example page's tables yield a
transaction, yet the text extractor still contributes its transaction to
the page's combined list. -/
theorem C6_counterexample :
    parseTableUniversal c3Table = [txSalary] ∧
      extractFromTextUniversal rentLine = [txRent] ∧
      pageTransactions c6Page = [txSalary, txRent] ∧
      [txSalary] ≠ ([] : List Tx) :=
  ⟨by with_unfolding_all rfl, by with_unfolding_all rfl, by with_unfolding_all rfl,
    by simp⟩

/-- The page text fold contributes nothing for pages with empty text. -/
theorem fullText_empty :
    ∀ (pages : List Page) (acc : String), (∀ p ∈ pages, p.text = "") →
      pages.foldl (fun acc p => if p.text ≠ "" then acc ++ p.text ++ "\n" else acc)
        acc = acc
  | [], _, _ => rfl
  | p :: pages, acc, h => by
    have hp : p.text = "" := h p (List.mem_cons_self _ _)
    rw [List.foldl_cons, if_neg (by simp [hp])]
    exact fullText_empty pages acc (fun q hq => h q (List.mem_cons_of_mem _ hq))

/-- A page with no tables and no text contributes no transactions. -/
theorem pageTransactions_empty (p : Page) (ht : p.tables = []) (hx : p.text = "") :
    pageTransactions p = [] := by
  unfold pageTransactions
  rw [if_neg (by simp [ht]), if_neg (by simp [hx])]
  rfl

/-- The page loop collects nothing from a document of empty pages. -/
theorem collect_empty :
    ∀ (pages : List Page) (acc : List Tx),
      (∀ p ∈ pages, p.tables = [] ∧ p.text = "") →
      pages.foldl (fun acc p => acc ++ pageTransactions p) acc = acc
  | [], _, _ => rfl
  | p :: pages, acc, h => by
    rw [List.foldl_cons,
      pageTransactions_empty p (h p (List.mem_cons_self _ _)).1
        (h p (List.mem_cons_self _ _)).2,
      List.append_nil]
    exact collect_empty pages acc (fun q hq => h q (List.mem_cons_of_mem _ hq))

/-- Claim C8, amended: a document whose every page yields no tables and no
text fails with the generic no-valid-transactions error — the engine
defines no separate NoTablesOrText kind — and an empty transaction list. -/
theorem C8_empty_document (pages : List Page)
    (h : ∀ p ∈ pages, p.tables = [] ∧ p.text = "") :
    processDocument pages =
      { success := false, error := some "No valid transactions found in PDF",
        transactions := [], bank_name := "Unknown Bank", transaction_count := 0,
        date_range := none } := by
  unfold processDocument
  rw [show collectTransactions pages = [] from collect_empty pages [] h,
    show fullText pages = "" from fullText_empty pages "" (fun p hp => (h p hp).2)]
  with_unfolding_all rfl

/-- Witness for C8 at a one-page document. -/
theorem C8_empty_document_witness :
    processDocument [{ text := "", tables := [] }] =
      { success := false, error := some "No valid transactions found in PDF",
        transactions := [], bank_name := "Unknown Bank", transaction_count := 0,
        date_range := none } :=
  C8_empty_document [{ text := "", tables := [] }] (by simp)

/-- Counterexample for C8 as stated: the all-empty document yields exactly
the same generic error as a document that processes to zero records, so the
claimed distinct NoTablesOrText kind does not exist in the code. -/
theorem C8_counterexample :
    (processDocument [{ text := "", tables := [] }]).success = false ∧
      (processDocument [{ text := "", tables := [] }]).error =
        some "No valid transactions found in PDF" ∧
      (processDocument [{ text := "", tables := [] }]).transactions = [] ∧
      (processDocument [{ text := "hello world prose", tables := [] }]).error =
        some "No valid transactions found in PDF" :=
  ⟨by with_unfolding_all rfl, by with_unfolding_all rfl, by with_unfolding_all rfl,
    by with_unfolding_all rfl⟩

/-- Inserting a transaction whose key equals k prepends it to the
key-filtered sublist: insertion passes only strictly larger keys. -/
theorem filter_orderedInsert_key_eq (k : Nat) (a : Tx) (ha : txDateKey a = k) :
    ∀ l : List Tx,
      (List.orderedInsert keyLE a l).filter (fun t => txDateKey t == k) =
        a :: l.filter (fun t => txDateKey t == k)
  | [] => by simp [List.filter_cons, ha]
  | b :: l => by
    by_cases hab : keyLE a b
    · simp [List.orderedInsert, hab, List.filter_cons, ha]
    · have hb : ¬txDateKey b = k := by
        intro hk
        exact hab (by simp [keyLE, ha, hk])
      simp [List.orderedInsert, hab, List.filter_cons, hb,
        filter_orderedInsert_key_eq k a ha l]

/-- Inserting a transaction with a different key leaves the key-filtered
sublist unchanged. -/
theorem filter_orderedInsert_key_ne (k : Nat) (a : Tx) (ha : ¬txDateKey a = k) :
    ∀ l : List Tx,
      (List.orderedInsert keyLE a l).filter (fun t => txDateKey t == k) =
        l.filter (fun t => txDateKey t == k)
  | [] => by simp [List.filter_cons, ha]
  | b :: l => by
    by_cases hab : keyLE a b
    · simp [List.orderedInsert, hab, List.filter_cons, ha]
    · simp [List.orderedInsert, hab, List.filter_cons,
        filter_orderedInsert_key_ne k a ha l]

/-- Stability of the sort: the sublist of transactions with any given
parsed-date key is preserved, so ties keep their original relative order. -/
theorem filter_insertionSort_key (k : Nat) :
    ∀ ts : List Tx,
      (List.insertionSort keyLE ts).filter (fun t => txDateKey t == k) =
        ts.filter (fun t => txDateKey t == k)
  | [] => rfl
  | a :: ts => by
    by_cases ha : txDateKey a = k
    · simp only [List.insertionSort]
      rw [filter_orderedInsert_key_eq k a ha _, filter_insertionSort_key k ts,
        List.filter_cons]
      simp [ha]
    · simp only [List.insertionSort]
      rw [filter_orderedInsert_key_ne k a ha _, filter_insertionSort_key k ts,
        List.filter_cons]
      simp [ha]

/-- Claim C4, amended: on a non-empty deduplicated list the aggregator
returns success with the list stably sorted ascending by parsed date
(unparseable and empty dates carrying the minimal key), and sets the date
range from the first and last non-empty date fields of the sorted list —
not from its first and last elements — leaving it unset when no transaction
has a date. -/
theorem C4_aggregator (bank : Option String) (ts : List Tx)
    (h1 : removeDuplicates ts = ts) (h2 : ts ≠ []) :
    (finalize bank ts).success = true ∧
      (finalize bank ts).transactions = sortTransactions ts ∧
      List.Sorted keyLE (finalize bank ts).transactions ∧
      (∀ k : Nat,
        (finalize bank ts).transactions.filter (fun t => txDateKey t == k) =
          ts.filter (fun t => txDateKey t == k)) ∧
      (finalize bank ts).transactions.Perm ts ∧
      (finalize bank ts).date_range =
        (match ((sortTransactions ts).map Tx.date).filter (fun d => !(d == "")) with
         | [] => none
         | d :: rest => some (d, List.getLastD rest d)) := by
  simp only [finalize, h1]
  rw [if_neg h2]
  refine ⟨rfl, rfl, ?_, ?_, ?_, rfl⟩
  · exact List.sorted_insertionSort keyLE ts
  · exact fun k => filter_insertionSort_key k ts
  · exact List.perm_insertionSort keyLE ts

/-- Witness for C4 at a concrete two-element list. -/
theorem C4_aggregator_witness : (finalize none [txDated, txRent]).success = true :=
  (C4_aggregator none [txDated, txRent] (by with_unfolding_all rfl) (by simp)).1

/-- Counterexample for C4 as stated: with an empty-dated transaction
sorting first, the date range starts at the first non-empty date, not at
the date field of the sorted list's first element. -/
theorem C4_counterexample :
    removeDuplicates [txNoDate, txDated] = [txNoDate, txDated] ∧
      (finalize none [txNoDate, txDated]).transactions.head?.map Tx.date = some "" ∧
      (finalize none [txNoDate, txDated]).date_range.map Prod.fst =
        some "01-06-2025" ∧
      (finalize none [txNoDate, txDated]).date_range.map Prod.fst ≠
        (finalize none [txNoDate, txDated]).transactions.head?.map Tx.date :=
  ⟨by with_unfolding_all rfl, by with_unfolding_all rfl, by with_unfolding_all rfl,
    by with_unfolding_all decide⟩

end PdfCsv
